import Mathlib

/-
Verification development for the fastapi-crud-kit query-filtering layer.

The definitions below are a shallow embedding of the Python sources:
  - query/filters/operators.py   (FilterOperator)
  - query/filters/schema.py      (RawFilterSchema, FilterSchema and its
                                  pydantic operator validation)
  - query/filters/allowed.py     (AllowedFilter)
  - query/filters/validator.py   (resolve_and_validate_filters,
                                  _resolve_filters_without_validation,
                                  _normalize_filter_value)
  - query/filters/parser.py      (parse_filter_params)
  - query/builder.py             (QueryBuilder.OPERATOR_MAP, apply_filters)
  - query/exceptions.py          (FilterNotAllowedError,
                                  FilterOperatorNotAllowedError)
  - crud/base.py                 (CRUDBase._get_primary_key_field, get,
                                  update, delete)

Python exceptions are modelled with `Except`: a function that can raise
returns `Except E A` and a raised exception is `Except.error`.
Python string values, lists of strings and booleans flowing through filter
values are modelled by the `FilterValue` inductive.
-/

/-- Values a filter can carry after normalization: a raw string, a list of
strings, or a boolean (null-check filters). Mirrors the dynamically typed
`value: Any` field in the Python schemas, restricted to the shapes the
pipeline actually produces. -/
inductive FilterValue where
  | str : String → FilterValue
  | list : List String → FilterValue
  | bool : Bool → FilterValue
deriving DecidableEq, Repr

/-- Supported filter operator tokens, in declaration order of the
`FilterOperator` enum in operators.py. -/
def FilterOperator.all : List String :=
  ["eq", "ne", "gt", "gte", "lt", "lte",
   "contains", "icontains", "starts_with", "istarts_with",
   "ends_with", "iends_with", "in", "nin",
   "is_null", "is_not_null", "between", "not_between"]

/-- Default operator, `FilterOperator.default()` in operators.py. -/
def FilterOperator.defaultOp : String := "eq"

/-- Errors raised by the filter pipeline: `ValueError` (pydantic operator
validation, list indexing), `FilterNotAllowedError` and
`FilterOperatorNotAllowedError` from query/exceptions.py, each carrying the
same data as the Python exception attributes. -/
inductive FilterError where
  | valueError (msg : String)
  | filterNotAllowed (filterName : String) (allowedFilters : List String)
  | operatorNotAllowed (filterName : String) (operator : String)
      (allowedOperators : List String)
deriving DecidableEq, Repr

/-- Conversion of an operator string through the enum,
`FilterOperator.from_string` in operators.py: identity on supported tokens,
raises ValueError otherwise. -/
def FilterOperator.fromString (value : String) : Except FilterError String :=
  if value ∈ FilterOperator.all then Except.ok value
  else Except.error (FilterError.valueError ("Invalid operator: " ++ value))

/-- Raw filter as parsed from the URL, `RawFilterSchema` in
query/filters/schema.py. -/
structure RawFilterSchema where
  alias_or_field : String
  operator : Option String
  values : List String
deriving DecidableEq, Repr

/-- Resolved filter condition, `FilterSchema` in query/filters/schema.py. -/
structure FilterSchema where
  field : String
  operator : String
  value : FilterValue
deriving DecidableEq, Repr

/-- Construction of a `FilterSchema` including the pydantic
`validate_operator` field validator: construction raises when the operator
is not one of the supported tokens. -/
def FilterSchema.validated (field operator : String) (value : FilterValue) :
    Except FilterError FilterSchema :=
  if operator ∈ FilterOperator.all then
    Except.ok ⟨field, operator, value⟩
  else
    Except.error (FilterError.valueError ("Invalid operator " ++ operator))

/-- Allowed-filter policy entry, the `AllowedFilter` class of
query/filters/allowed.py after construction: operators are stored as
validated strings (enum values). -/
structure AllowedFilter where
  field : String
  aliasName : String
  default_operator : String
  allowed_operators : List String
deriving DecidableEq, Repr

/-- The constructor `AllowedFilter.__init__`: normalizes the default
operator and the allowed-operator list through `FilterOperator.from_string`
(raising on unsupported tokens), defaults the allowed set to the singleton
default operator, defaults the alias to the field name, and raises a
ValueError when the default operator is absent from the allowed set. -/
def AllowedFilter.make (field : String) (default_operator : String)
    (allowed_operators : Option (List String)) (aliasOpt : Option String) :
    Except FilterError AllowedFilter := do
  let dop ← FilterOperator.fromString default_operator
  let aops ←
    match allowed_operators with
    | none => Except.ok [dop]
    | some ops => ops.mapM FilterOperator.fromString
  if dop ∈ aops then
    Except.ok ⟨field, aliasOpt.getD field, dop, aops⟩
  else
    Except.error (FilterError.valueError
      ("Default operator " ++ dop ++ " must be in allowed_operators"))

/-- The preset `AllowedFilter.exact`: default operator `eq`, default
allowed set eq, ne, in, nin. -/
def AllowedFilter.exact (field : String) (aliasOpt : Option String)
    (allowed_operators : Option (List String)) :
    Except FilterError AllowedFilter :=
  AllowedFilter.make field "eq"
    (some (allowed_operators.getD ["eq", "ne", "in", "nin"])) aliasOpt

/-- The check `AllowedFilter.is_operator_allowed`: an unsupported token is
not allowed (from_string raises, caught, returns False); otherwise
membership in the stored allowed set. -/
def AllowedFilter.isOperatorAllowed (af : AllowedFilter) (operator : String) :
    Bool :=
  decide (operator ∈ FilterOperator.all) &&
    decide (operator ∈ af.allowed_operators)

/-- Python truthiness of an optional string: None and the empty string are
falsy. The validator branches on `if explicit_operator:` which uses this. -/
def optStringTruthy : Option String → Bool
  | none => false
  | some s => s != ""

/-- Splitting a character list on commas, the semantics of the Python
split on a one-character separator: the empty input gives one empty piece,
and every comma starts a new piece. Implemented char-wise so terms reduce
definitionally. -/
def splitCharsOnComma : List Char → List (List Char)
  | [] => [[]]
  | c :: rest =>
    let r := splitCharsOnComma rest
    if c == ',' then [] :: r
    else
      match r with
      | h :: t => (c :: h) :: t
      | [] => [[c]]

/-- The Python str.split with a comma separator. -/
def pySplitComma (s : String) : List String :=
  (splitCharsOnComma s.toList).map String.mk

/-- The Python str.strip on the ASCII whitespace subset (space, tab,
carriage return, newline), implemented char-wise. -/
def pyStrip (s : String) : String :=
  String.mk
    (((s.toList.dropWhile Char.isWhitespace).reverse.dropWhile
        Char.isWhitespace).reverse)

/-- The Python str.lower restricted to ASCII letters, implemented
char-wise. -/
def pyLower (s : String) : String :=
  String.mk (s.toList.map Char.toLower)

/-- Comma-splitting used by value normalization: split on commas, strip
each piece, keep the non-empty ones. Mirrors the list comprehension
`v.strip() for v in s.split(",") if v.strip()`. -/
def splitCommaTrim (s : String) : List String :=
  ((pySplitComma s).map pyStrip).filter (fun t => t ≠ "")

/-- Expansion of a list value under the `in` operator in
`_normalize_filter_value`: each element containing a comma is re-split
(trimmed, empties dropped); an element without a comma is stripped and kept
even when empty. -/
def expandCommaList : List String → List String
  | [] => []
  | v :: rest =>
    (if v.toList.contains ',' then splitCommaTrim v else [pyStrip v]) ++
      expandCommaList rest

/-- The helper `_normalize_filter_value` of query/filters/validator.py.
Note the local variable `operator` is upgraded to `in` for multi-value
default-operator filters, which affects only the value shape here: the
caller never sees the upgraded operator. An empty values list raises
(list index out of range), as `values[0]` would in Python. -/
def normalizeFilterValue (values : List String) (operator : String)
    (operatorWasExplicit : Bool) : Except FilterError FilterValue :=
  match values with
  | [] => Except.error (FilterError.valueError "list index out of range")
  | v :: rest =>
    let multiple := !rest.isEmpty
    let op :=
      if multiple && operator == FilterOperator.defaultOp &&
          !operatorWasExplicit then "in"
      else operator
    let filterValue : FilterValue :=
      if multiple then FilterValue.list (v :: rest) else FilterValue.str v
    if op == "is_null" || op == "is_not_null" then
      let s :=
        match filterValue with
        | FilterValue.list [] => "false"
        | FilterValue.list (x :: _) => x
        | FilterValue.str s => s
        | FilterValue.bool b => if b then "true" else "false"
      Except.ok (FilterValue.bool (pyLower s ∈ ["true", "1", "yes"]))
    else if op == "in" then
      match filterValue with
      | FilterValue.str s => Except.ok (FilterValue.list (splitCommaTrim s))
      | FilterValue.list l => Except.ok (FilterValue.list (expandCommaList l))
      | FilterValue.bool _ => Except.ok filterValue
    else
      Except.ok filterValue

/-- Loop body of `_resolve_filters_without_validation` for one raw filter
(permissive mode): substitute the default operator for an absent or empty
one (Python or-truthiness), normalize the value, and construct the
validated schema; any raise propagates. -/
def resolveOneWithoutValidation (rawFilter : RawFilterSchema) :
    Except FilterError FilterSchema :=
  let field := rawFilter.alias_or_field
  let operator :=
    match rawFilter.operator with
    | none => FilterOperator.defaultOp
    | some s => if s == "" then FilterOperator.defaultOp else s
  match normalizeFilterValue rawFilter.values operator
      rawFilter.operator.isSome with
  | Except.error e => Except.error e
  | Except.ok normalizedValue =>
    FilterSchema.validated field operator normalizedValue

/-- The fallback `_resolve_filters_without_validation` (permissive mode).
The Python for-loop with append is written as structural recursion
preserving order; the first raise aborts the loop. -/
def resolveFiltersWithoutValidation :
    List RawFilterSchema → Except FilterError (List FilterSchema)
  | [] => Except.ok []
  | rawFilter :: rest =>
    match resolveOneWithoutValidation rawFilter with
    | Except.error e => Except.error e
    | Except.ok fs =>
      match resolveFiltersWithoutValidation rest with
      | Except.error e => Except.error e
      | Except.ok others => Except.ok (fs :: others)

/-- Insertion into a Python dict modelled as an association list: an
existing key keeps its position and gets the new value, a new key is
appended (insertion order preserved, as dict does). -/
def dictInsert (m : List (String × AllowedFilter)) (k : String)
    (v : AllowedFilter) : List (String × AllowedFilter) :=
  if m.any (fun p => p.1 == k) then
    m.map (fun p => if p.1 == k then (k, v) else p)
  else m ++ [(k, v)]

/-- The alias lookup map built by `resolve_and_validate_filters` from the
values of the supplied policy dict. -/
def buildAliasMap (allowedFilters : List (String × AllowedFilter)) :
    List (String × AllowedFilter) :=
  allowedFilters.foldl (fun m kv => dictInsert m kv.2.aliasName kv.2) []

/-- The field-name lookup map built by `resolve_and_validate_filters`. -/
def buildFieldMap (allowedFilters : List (String × AllowedFilter)) :
    List (String × AllowedFilter) :=
  allowedFilters.foldl (fun m kv => dictInsert m kv.2.field kv.2) []

/-- The policy-mode loop body of `resolve_and_validate_filters` for one
raw filter: alias map first, then field map, else FilterNotAllowedError
with the alias-map keys; a truthy explicit operator must be allowed, else
FilterOperatorNotAllowedError carrying the filter name, the rejected
operator and the permitted operators; an absent operator takes the default
of the matched declaration; the value is normalized and the validated
schema constructed on the resolved underlying field name. -/
def resolveOneWithPolicy (byAlias byField : List (String × AllowedFilter))
    (rawFilter : RawFilterSchema) : Except FilterError FilterSchema :=
  let aliasOrField := rawFilter.alias_or_field
  let explicitOperator := rawFilter.operator
  let matched : Except FilterError (AllowedFilter × String) :=
    match List.lookup aliasOrField byAlias with
    | some af => Except.ok (af, af.field)
    | none =>
      match List.lookup aliasOrField byField with
      | some af => Except.ok (af, aliasOrField)
      | none =>
        Except.error
          (FilterError.filterNotAllowed aliasOrField (byAlias.map Prod.fst))
  match matched with
  | Except.error e => Except.error e
  | Except.ok (allowedFilter, actualField) =>
    let operatorStep : Except FilterError String :=
      if optStringTruthy explicitOperator then
        let op := explicitOperator.getD ""
        if allowedFilter.isOperatorAllowed op then Except.ok op
        else
          Except.error (FilterError.operatorNotAllowed aliasOrField op
            allowedFilter.allowed_operators)
      else Except.ok allowedFilter.default_operator
    match operatorStep with
    | Except.error e => Except.error e
    | Except.ok operatorStr =>
      match normalizeFilterValue rawFilter.values operatorStr
          explicitOperator.isSome with
      | Except.error e => Except.error e
      | Except.ok normalizedValue =>
        FilterSchema.validated actualField operatorStr normalizedValue

/-- Policy-mode loop of `resolve_and_validate_filters` over the raw
filters, in order, aborting at the first raise. -/
def resolveWithPolicy (byAlias byField : List (String × AllowedFilter)) :
    List RawFilterSchema → Except FilterError (List FilterSchema)
  | [] => Except.ok []
  | rawFilter :: rest =>
    match resolveOneWithPolicy byAlias byField rawFilter with
    | Except.error e => Except.error e
    | Except.ok fs =>
      match resolveWithPolicy byAlias byField rest with
      | Except.error e => Except.error e
      | Except.ok others => Except.ok (fs :: others)

/-- The entry point `resolve_and_validate_filters` of
query/filters/validator.py: an absent or empty policy dict selects the
permissive fallback; otherwise the dual lookup maps are built from the
policy values and each raw filter is resolved against them in order. -/
def resolveAndValidateFilters (rawFilters : List RawFilterSchema)
    (allowedFilters : List (String × AllowedFilter)) :
    Except FilterError (List FilterSchema) :=
  if allowedFilters.isEmpty then
    resolveFiltersWithoutValidation rawFilters
  else
    resolveWithPolicy (buildAliasMap allowedFilters)
      (buildFieldMap allowedFilters) rawFilters

/-- Scan of characters up to the first closing bracket: returns the
characters before it and those after, or none when no closing bracket
occurs. Used to model the regex groups of the parser key grammar. -/
def splitAtRBracket : List Char → Option (List Char × List Char)
  | [] => none
  | c :: rest =>
    if c == ']' then some ([], rest)
    else
      match splitAtRBracket rest with
      | some (a, b) => some (c :: a, b)
      | none => none

/-- Key grammar of parse_filter_params, the regex
filter, open bracket, one or more non-bracket characters, close bracket,
optionally a second such bracketed group, end of string. Returns the field
token and the optional operator token on a match. -/
def matchFilterKey (key : String) : Option (String × Option String) :=
  let cs := key.toList
  if cs.take 7 == "filter[".toList then
    match splitAtRBracket (cs.drop 7) with
    | none => none
    | some (fieldCs, rest) =>
      if fieldCs.isEmpty then none
      else
        match rest with
        | [] => some (String.mk fieldCs, none)
        | '[' :: rest2 =>
          match splitAtRBracket rest2 with
          | none => none
          | some (opCs, rest3) =>
            if opCs.isEmpty || !rest3.isEmpty then none
            else some (String.mk fieldCs, some (String.mk opCs))
        | _ => none
  else none

/-- Appending a value to a defaultdict-of-lists group keyed by
(field, operator): an existing group keeps its position and accumulates,
a new group is appended at the end (dict insertion order). -/
def addToGroups (groups : List ((String × String) × List String))
    (key : String × String) (value : String) :
    List ((String × String) × List String) :=
  if groups.any (fun g => g.1 == key) then
    groups.map (fun g => if g.1 == key then (g.1, g.2 ++ [value]) else g)
  else groups ++ [(key, [value])]

/-- First loop of parse_filter_params: walk the parsed query parameters in
order, skip keys that do not match the filter grammar, percent-decode the
field token and the values (the supplied decode function models urllib
unquote, which the claims do not depend on), default an absent operator
token to eq, and accumulate values per (field, operator) group. -/
def collectFilterGroupsAux (unquoteFn : String → String) :
    List (String × List String) → List ((String × String) × List String) →
    List ((String × String) × List String)
  | [], groups => groups
  | kv :: rest, groups =>
    collectFilterGroupsAux unquoteFn rest
      (match matchFilterKey kv.1 with
       | none => groups
       | some (rawField, operatorGroup) =>
         let field := unquoteFn rawField
         let operator := operatorGroup.getD FilterOperator.defaultOp
         kv.2.foldl
           (fun gs value =>
             addToGroups gs (field, operator) (unquoteFn value))
           groups)

/-- Accumulation of all filter groups of the request, starting from the
empty dict. -/
def collectFilterGroups (unquoteFn : String → String)
    (params : List (String × List String)) :
    List ((String × String) × List String) :=
  collectFilterGroupsAux unquoteFn params []

/-- Second loop of parse_filter_params, building one FilterSchema from a
(field, operator) group: multiple values upgrade a default operator to in
and keep the list; null-check operators collapse to a boolean (the Python
str() of a list never equals one of true, 1, yes, so a multi-value group
yields false); a single string under in is comma-split; construction goes
through the validating FilterSchema constructor, which raises on an
unsupported operator token. An empty group raises as values[0] would. -/
def buildFilterFromGroup (field operator : String) (values : List String) :
    Except FilterError FilterSchema :=
  match values with
  | [] => Except.error (FilterError.valueError "list index out of range")
  | v :: rest =>
    let multiple := !rest.isEmpty
    let operator2 :=
      if multiple && operator == FilterOperator.defaultOp then "in"
      else operator
    let filterValue : FilterValue :=
      if multiple then FilterValue.list (v :: rest) else FilterValue.str v
    if operator2 == "is_null" || operator2 == "is_not_null" then
      let b : Bool :=
        match filterValue with
        | FilterValue.str s => decide (pyLower s ∈ ["true", "1", "yes"])
        | _ => false
      FilterSchema.validated field operator2 (FilterValue.bool b)
    else if operator2 == "in" then
      match filterValue with
      | FilterValue.str s =>
        FilterSchema.validated field operator2
          (FilterValue.list (splitCommaTrim s))
      | _ => FilterSchema.validated field operator2 filterValue
    else
      FilterSchema.validated field operator2 filterValue

/-- Recursion over the accumulated groups building the output list in
order; the first construction error aborts, as the Python loop would. -/
def buildFiltersFromGroups :
    List ((String × String) × List String) →
    Except FilterError (List FilterSchema)
  | [] => Except.ok []
  | g :: rest =>
    match buildFilterFromGroup g.1.1 g.1.2 g.2 with
    | Except.error e => Except.error e
    | Except.ok fs =>
      match buildFiltersFromGroups rest with
      | Except.error e => Except.error e
      | Except.ok others => Except.ok (fs :: others)

/-- The function parse_filter_params of query/filters/parser.py, over the
parsed query-string mapping (key, list of values) and a percent-decoding
function. -/
def parse_filter_params (unquoteFn : String → String)
    (params : List (String × List String)) :
    Except FilterError (List FilterSchema) :=
  buildFiltersFromGroups (collectFilterGroups unquoteFn params)

/-- Predicates the query builder can attach to a statement, one
constructor per entry of QueryBuilder.OPERATOR_MAP in query/builder.py. -/
inductive SqlPred where
  | eqPred (col : String) (v : FilterValue)
  | nePred (col : String) (v : FilterValue)
  | ltPred (col : String) (v : FilterValue)
  | lePred (col : String) (v : FilterValue)
  | gtPred (col : String) (v : FilterValue)
  | gePred (col : String) (v : FilterValue)
  | likePred (col : String) (v : FilterValue)
  | ilikePred (col : String) (v : FilterValue)
  | inPred (col : String) (vs : List FilterValue)
deriving DecidableEq, Repr

/-- Coercion used by the in entry of the operator map:
val if isinstance(val, list) else [val]. -/
def coerceToList (v : FilterValue) : List FilterValue :=
  match v with
  | FilterValue.list l => l.map FilterValue.str
  | x => [x]

/-- The dictionary QueryBuilder.OPERATOR_MAP of query/builder.py, as a
lookup from operator string to predicate constructor. Its keys are exactly
eq, ne, lt, lte, gt, gte, like, ilike, in. -/
def OPERATOR_MAP (operator : String) :
    Option (String → FilterValue → SqlPred) :=
  if operator == "eq" then some SqlPred.eqPred
  else if operator == "ne" then some SqlPred.nePred
  else if operator == "lt" then some SqlPred.ltPred
  else if operator == "lte" then some SqlPred.lePred
  else if operator == "gt" then some SqlPred.gtPred
  else if operator == "gte" then some SqlPred.gePred
  else if operator == "like" then some SqlPred.likePred
  else if operator == "ilike" then some SqlPred.ilikePred
  else if operator == "in" then
    some (fun col v => SqlPred.inPred col (coerceToList v))
  else none

/-- Entity-type descriptor for the builder: the model name and the column
attribute names getattr can find on the model class. -/
structure SqlModel where
  name : String
  columns : List String
deriving DecidableEq, Repr

/-- The method QueryBuilder.apply_filters of query/builder.py: for each
filter, a model without the attribute is skipped, an operator without an
OPERATOR_MAP entry is skipped, otherwise the predicate is appended to the
accumulated query. The query state is modelled as the ordered list of
predicates attached so far. -/
def applyFilters (model : SqlModel) (query : List SqlPred)
    (filters : List FilterSchema) : List SqlPred :=
  filters.foldl
    (fun q f =>
      if f.field ∈ model.columns then
        match OPERATOR_MAP f.operator with
        | some opFn => q ++ [opFn f.field f.value]
        | none => q
      else q)
    query

/-- Identifier passed to get, update and delete: a plain integer key, an
arbitrary string, or a UUID value (carried with its string form). Mirrors
the isinstance checks of CRUDBase._get_primary_key_field. -/
inductive EntityId where
  | intId : Int → EntityId
  | strId : String → EntityId
  | uuidId : String → EntityId
deriving DecidableEq, Repr

/-- Errors surfaced by the CRUD layer. The not-found variant is modelled
from the spec: NotFoundError lives in the database exceptions module whose
definition is not part of the sources at hand (crud/base.py imports and
raises it as NotFoundError(model_name, id)); the spec describes it as a
not-found failure naming the entity type and the identifier, which the
constructor arguments carry. The value-error variant covers the ValueError
of _get_primary_key_field, and the multiple-results variant the condition
scalar_one_or_none raises on more than one matching row. -/
inductive CrudError where
  | notFound (entity : String) (identifier : EntityId)
  | valueError (msg : String)
  | multipleResults (msg : String)
deriving DecidableEq, Repr

/-- Descriptor of the SQLAlchemy model class as seen by CRUDBase: its
name, the attribute names hasattr can find, and the declared primary-key
column names in order (empty when no primary key is declared). -/
structure ModelMeta where
  name : String
  attrs : List String
  pkColumns : List String
deriving DecidableEq, Repr

/-- The UUID test of _get_primary_key_field: a UUID instance, or a string
of length exactly 36 containing exactly 4 hyphens. -/
def isUuidIdentifier : EntityId → Bool
  | EntityId.uuidId _ => true
  | EntityId.strId s => s.length == 36 && s.toList.count '-' == 4
  | EntityId.intId _ => false

/-- The method CRUDBase._get_primary_key_field of crud/base.py: a
UUID-shaped identifier targets the uuid attribute when the model has one;
otherwise the first declared primary-key column; otherwise the fallback id
then uuid; otherwise a ValueError. -/
def getPrimaryKeyField (model : ModelMeta) (identifier : EntityId) :
    Except CrudError String :=
  if isUuidIdentifier identifier && model.attrs.contains "uuid" then
    Except.ok "uuid"
  else
    match model.pkColumns with
    | pk :: _ => Except.ok pk
    | [] =>
      if model.attrs.contains "id" then Except.ok "id"
      else if model.attrs.contains "uuid" then Except.ok "uuid"
      else
        Except.error (CrudError.valueError
          ("Could not determine primary key field for model " ++ model.name))

/-- A stored entity, as the attribute assignment of its fields relevant to
identifier filtering: attribute name to identifier-typed value. -/
abbrev EntityRow := List (String × EntityId)

/-- Modelled from the spec: executing the statement built from the single
injected equality filter against the store and reading it with
scalar_one_or_none (the data-access layer is an external collaborator).
Rows whose named attribute equals the identifier are the matches; none
yields no result, one yields it, several raise. -/
def scalarOneOrNone (store : List EntityRow) (pkField : String)
    (identifier : EntityId) : Except CrudError (Option EntityRow) :=
  match store.filter (fun r => List.lookup pkField r == some identifier) with
  | [] => Except.ok none
  | [r] => Except.ok (some r)
  | _ =>
    Except.error (CrudError.multipleResults
      "Multiple rows were found when one or none was required")

/-- The method CRUDBase.get of crud/base.py without extra query params:
determine the primary-key field from the identifier, inject the equality
filter for it, execute, and return the single result or none. -/
def CRUDBase.get (model : ModelMeta) (store : List EntityRow)
    (identifier : EntityId) : Except CrudError (Option EntityRow) := do
  let pkField ← getPrimaryKeyField model identifier
  scalarOneOrNone store pkField identifier

/-- Attribute assignment guarded by hasattr, as the update loop does for a
mapping payload: an attribute the row lacks is skipped. -/
def setattrIfHas (r : EntityRow) (k : String) (v : EntityId) : EntityRow :=
  if (List.lookup k r).isSome then
    r.map (fun p => if p.1 == k then (p.1, v) else p)
  else r

/-- The method CRUDBase.update of crud/base.py for a mapping payload: a
get first; no match raises the not-found failure carrying the model name
and the identifier; otherwise each payload attribute the object has is
assigned and the updated object returned (the flush and commit are the
data-access layer and change no attribute). -/
def CRUDBase.update (model : ModelMeta) (store : List EntityRow)
    (identifier : EntityId) (objIn : List (String × EntityId)) :
    Except CrudError EntityRow := do
  let dbObj ← CRUDBase.get model store identifier
  match dbObj with
  | none => Except.error (CrudError.notFound model.name identifier)
  | some r =>
    Except.ok (objIn.foldl (fun acc kv => setattrIfHas acc kv.1 kv.2) r)

/-- The method CRUDBase.delete of crud/base.py: a get first; no match
raises the not-found failure carrying the model name and the identifier;
otherwise the deleted object is returned. -/
def CRUDBase.delete (model : ModelMeta) (store : List EntityRow)
    (identifier : EntityId) : Except CrudError EntityRow := do
  let dbObj ← CRUDBase.get model store identifier
  match dbObj with
  | none => Except.error (CrudError.notFound model.name identifier)
  | some r => Except.ok r

/-
Helper lemmas shared by the claim theorems below.
-/

/-- Bind on a successful Except computation reduces to the continuation. -/
theorem exceptBindOk {ε α β : Type} (v : α) (f : α → Except ε β) :
    (Except.ok v >>= f) = f v := rfl

/-- Bind on a failed Except computation propagates the error. -/
theorem exceptBindError {ε α β : Type} (e : ε) (f : α → Except ε β) :
    ((Except.error e : Except ε α) >>= f) = Except.error e := rfl

/-- A successfully constructed FilterSchema records the given fields. -/
theorem validated_ok {field operator : String} {value : FilterValue}
    (h : operator ∈ FilterOperator.all) :
    FilterSchema.validated field operator value =
      Except.ok ⟨field, operator, value⟩ := by
  simp [FilterSchema.validated, h]

/-- A successfully constructed FilterSchema has a supported operator. -/
theorem validated_ok_operator {field operator : String} {value : FilterValue}
    {fs : FilterSchema}
    (h : FilterSchema.validated field operator value = Except.ok fs) :
    fs.operator ∈ FilterOperator.all := by
  unfold FilterSchema.validated at h
  by_cases hop : operator ∈ FilterOperator.all
  · rw [if_pos hop] at h
    cases h
    exact hop
  · rw [if_neg hop] at h
    cases h

/-- Constructing a FilterSchema with an unsupported operator fails. -/
theorem validated_bad_operator (field operator : String) (value : FilterValue)
    (h : operator ∉ FilterOperator.all) :
    FilterSchema.validated field operator value =
      Except.error (FilterError.valueError ("Invalid operator " ++ operator)) := by
  simp [FilterSchema.validated, h]

/-- Normalization of a non-empty values list never raises. -/
theorem normalizeFilterValue_ok (v : String) (vs : List String) (op : String)
    (b : Bool) :
    ∃ val, normalizeFilterValue (v :: vs) op b = Except.ok val := by
  unfold normalizeFilterValue
  dsimp only
  repeat' split
  all_goals exact ⟨_, rfl⟩

/-- Claim C1, counterexample: a resolved filter with the pattern-match
operator icontains on the existing column description and value innov adds
no predicate at all to the query: the statement carries an empty predicate
list, not a case-insensitive containment test. -/
theorem c1_icontains_adds_no_predicate :
    applyFilters ⟨"Category", ["name", "description", "created_at"]⟩ []
      [⟨"description", "icontains", FilterValue.str "innov"⟩] = [] := by
  decide

/-- Claim C1, amended: the builder operator map has entries only for eq,
ne, lt, lte, gt, gte, like, ilike and in. For a resolved filter whose
field names an existing model column, apply_filters silently skips the
pattern-match operators (contains, icontains, starts_with, istarts_with,
ends_with, iends_with) and the membership operator nin, adding no
predicate; only the membership operator in adds a predicate, coercing a
non-list value into a single-element list. -/
theorem c1_pattern_and_nin_skipped_in_applied (model : SqlModel)
    (q : List SqlPred) (f : FilterSchema)
    (hcol : f.field ∈ model.columns) :
    (f.operator ∈ (["contains", "icontains", "starts_with", "istarts_with",
        "ends_with", "iends_with", "nin"] : List String) →
      applyFilters model q [f] = q) ∧
    (f.operator = "in" →
      applyFilters model q [f] =
        q ++ [SqlPred.inPred f.field (coerceToList f.value)]) := by
  have hunfold : applyFilters model q [f] =
      (if f.field ∈ model.columns then
        match OPERATOR_MAP f.operator with
        | some opFn => q ++ [opFn f.field f.value]
        | none => q
      else q) := rfl
  constructor
  · intro hop
    rw [hunfold, if_pos hcol]
    simp only [List.mem_cons, List.not_mem_nil, or_false] at hop
    rcases hop with h | h | h | h | h | h | h <;> rw [h] <;> rfl
  · intro hop
    rw [hunfold, if_pos hcol, hop]
    rfl

/-- Claim C1, witness for the amended theorem at concrete inputs. -/
theorem c1_pattern_and_nin_skipped_in_applied_witness :
    applyFilters ⟨"Category", ["name", "description", "created_at"]⟩ []
      [⟨"description", "icontains", FilterValue.str "innov"⟩] = [] ∧
    applyFilters ⟨"Category", ["name", "description", "created_at"]⟩ []
      [⟨"name", "in", FilterValue.str "Tech"⟩] =
      [SqlPred.inPred "name" [FilterValue.str "Tech"]] :=
  ⟨(c1_pattern_and_nin_skipped_in_applied
      ⟨"Category", ["name", "description", "created_at"]⟩ []
      ⟨"description", "icontains", FilterValue.str "innov"⟩
      (by decide)).1 (by decide),
   (c1_pattern_and_nin_skipped_in_applied
      ⟨"Category", ["name", "description", "created_at"]⟩ []
      ⟨"name", "in", FilterValue.str "Tech"⟩
      (by decide)).2 rfl⟩

/-- Claim C2: evaluating the permissive-mode resolver at the failing input
of repeated key values 1 and 2 for the field id with no explicit operator.
The helper that normalizes the value upgrades its local operator variable
to in, but the caller never receives the upgrade: the resolved filter
carries operator eq with the full list as value, where the spec (and the
parallel implementation in the query-string parser) make the resolved
operator in. -/
theorem c2_multi_value_resolver_keeps_eq :
    resolveFiltersWithoutValidation [⟨"id", none, ["1", "2"]⟩] =
      Except.ok [⟨"id", "eq", FilterValue.list ["1", "2"]⟩] := rfl

/-- Claim C4, counterexample: a filter resolved under operator nin with
the comma-containing value keeps the raw single string: the value is not
exploded into trimmed tokens, because the comma-splitting branch of value
normalization tests only for the in operator. -/
theorem c4_nin_value_not_comma_split :
    resolveFiltersWithoutValidation [⟨"id", some "nin", ["1, 2,3"]⟩] =
      Except.ok [⟨"id", "nin", FilterValue.str "1, 2,3"⟩] := rfl

/-- Claim C4, amended: only under operator in is a comma-containing value
exploded: a single string value is split into trimmed non-empty tokens and
a list value is re-split element-wise; under operator nin the value passes
through unchanged (a single string stays a string and multiple values stay
the raw list). The tokens produced by the splitting are non-empty, and the
concrete value from the spec splits as stated. -/
theorem c4_comma_split_only_for_in :
    (∀ (s : String) (b : Bool),
      normalizeFilterValue [s] "in" b =
        Except.ok (FilterValue.list (splitCommaTrim s))) ∧
    (∀ (v : String) (vs : List String) (b : Bool), vs ≠ [] →
      normalizeFilterValue (v :: vs) "in" b =
        Except.ok (FilterValue.list (expandCommaList (v :: vs)))) ∧
    (∀ (s : String) (b : Bool),
      normalizeFilterValue [s] "nin" b = Except.ok (FilterValue.str s)) ∧
    (∀ (v : String) (vs : List String) (b : Bool), vs ≠ [] →
      normalizeFilterValue (v :: vs) "nin" b =
        Except.ok (FilterValue.list (v :: vs))) ∧
    splitCommaTrim "1, 2,3" = ["1", "2", "3"] ∧
    (∀ (s t : String), t ∈ splitCommaTrim s → t ≠ "") := by
  refine ⟨fun s b => rfl, fun v vs b hvs => ?_, fun s b => rfl,
    fun v vs b hvs => ?_, by decide, fun s t ht => ?_⟩
  · cases vs with
    | nil => exact absurd rfl hvs
    | cons w ws => rfl
  · cases vs with
    | nil => exact absurd rfl hvs
    | cons w ws => rfl
  · unfold splitCommaTrim at ht
    simp only [List.mem_filter, decide_eq_true_eq] at ht
    exact ht.2

/-- Claim C4, witness for the amended theorem at the concrete input from
the spec and at a nin input. -/
theorem c4_comma_split_only_for_in_witness :
    normalizeFilterValue ["1, 2,3"] "in" true =
      Except.ok (FilterValue.list (splitCommaTrim "1, 2,3")) ∧
    normalizeFilterValue ["1, 2,3"] "nin" true =
      Except.ok (FilterValue.str "1, 2,3") :=
  ⟨c4_comma_split_only_for_in.1 "1, 2,3" true,
   c4_comma_split_only_for_in.2.2.1 "1, 2,3" true⟩

/-- Mapping the operator-string conversion over a list is the identity
when it succeeds. -/
theorem mapM_fromString_ok : ∀ (ops l : List String),
    ops.mapM FilterOperator.fromString = Except.ok l → l = ops := by
  intro ops
  induction ops with
  | nil =>
    intro l h
    simp only [List.mapM_nil, pure, Except.pure, Except.ok.injEq] at h
    exact h.symm
  | cons a as ih =>
    intro l h
    rw [List.mapM_cons] at h
    by_cases ha : a ∈ FilterOperator.all
    · rw [show FilterOperator.fromString a = Except.ok a from by
        simp [FilterOperator.fromString, ha]] at h
      rw [exceptBindOk] at h
      cases has : as.mapM FilterOperator.fromString with
      | error e =>
        rw [has, exceptBindError] at h
        cases h
      | ok xs =>
        rw [has, exceptBindOk] at h
        have hx : xs = as := ih xs has
        simp only [pure, Except.pure, Except.ok.injEq] at h
        rw [← h, hx]
    · rw [show FilterOperator.fromString a =
          Except.error (FilterError.valueError ("Invalid operator: " ++ a))
          from by simp [FilterOperator.fromString, ha]] at h
      rw [exceptBindError] at h
      cases h

/-- Claim C6: constructing an AllowedFilter whose default operator is a
supported operator absent from the supplied allowed-operator list fails
with an error at construction time, for every field, default operator,
allowed-operator list and alias. -/
theorem c6_default_not_in_allowed_fails_at_construction
    (field default_operator : String) (aops : List String)
    (aliasOpt : Option String)
    (hdv : default_operator ∈ FilterOperator.all)
    (hnot : default_operator ∉ aops) :
    ∃ e, AllowedFilter.make field default_operator (some aops) aliasOpt =
      Except.error e := by
  unfold AllowedFilter.make
  rw [show FilterOperator.fromString default_operator =
      Except.ok default_operator from by
    simp [FilterOperator.fromString, hdv]]
  rw [exceptBindOk]
  cases hm : aops.mapM FilterOperator.fromString with
  | error e =>
    refine ⟨e, ?_⟩
    dsimp only
    rw [hm, exceptBindError]
  | ok l =>
    have hl : l = aops := mapM_fromString_ok aops l hm
    subst hl
    refine ⟨FilterError.valueError
      ("Default operator " ++ default_operator ++
        " must be in allowed_operators"), ?_⟩
    dsimp only
    rw [hm, exceptBindOk, if_neg hnot]

/-- Claim C6, witness at the concrete input from the spec: default
operator lt with allowed operators gt. -/
theorem c6_default_not_in_allowed_fails_at_construction_witness :
    ∃ e, AllowedFilter.make "x" "lt" (some ["gt"]) none = Except.error e :=
  c6_default_not_in_allowed_fails_at_construction "x" "lt" ["gt"] none
    (by decide) (by decide)

/-- Claim C10: the primary-key field used for the injected equality filter
of get, update and delete. A UUID-shaped identifier (a UUID value, or a
string of length exactly 36 containing exactly 4 hyphens) with a model
exposing a uuid attribute selects uuid regardless of the declared primary
key; every other combination selects the first declared primary-key
column, falling back to id then uuid when no primary key is declared, and
an error is raised only when none of these exist. -/
theorem c10_primary_key_field_selection (model : ModelMeta)
    (identifier : EntityId) :
    ((isUuidIdentifier identifier && model.attrs.contains "uuid") = true →
      getPrimaryKeyField model identifier = Except.ok "uuid") ∧
    (∀ pk rest,
      (isUuidIdentifier identifier && model.attrs.contains "uuid") = false →
      model.pkColumns = pk :: rest →
      getPrimaryKeyField model identifier = Except.ok pk) ∧
    ((isUuidIdentifier identifier && model.attrs.contains "uuid") = false →
      model.pkColumns = [] → model.attrs.contains "id" = true →
      getPrimaryKeyField model identifier = Except.ok "id") ∧
    ((isUuidIdentifier identifier && model.attrs.contains "uuid") = false →
      model.pkColumns = [] → model.attrs.contains "id" = false →
      model.attrs.contains "uuid" = true →
      getPrimaryKeyField model identifier = Except.ok "uuid") ∧
    ((isUuidIdentifier identifier && model.attrs.contains "uuid") = false →
      model.pkColumns = [] → model.attrs.contains "id" = false →
      model.attrs.contains "uuid" = false →
      getPrimaryKeyField model identifier =
        Except.error (CrudError.valueError
          ("Could not determine primary key field for model " ++
            model.name))) ∧
    (∀ s : String, isUuidIdentifier (EntityId.strId s) =
      (s.length == 36 && s.toList.count '-' == 4)) ∧
    (∀ u : String, isUuidIdentifier (EntityId.uuidId u) = true) ∧
    (∀ n : Int, isUuidIdentifier (EntityId.intId n) = false) := by
  refine ⟨fun h => ?_, fun pk rest h hpk => ?_, fun h hpk hid => ?_,
    fun h hpk hid huuid => ?_, fun h hpk hid huuid => ?_,
    fun s => rfl, fun u => rfl, fun n => rfl⟩
  · unfold getPrimaryKeyField
    rw [h]
    rfl
  · unfold getPrimaryKeyField
    rw [h, hpk]
    rfl
  · unfold getPrimaryKeyField
    rw [h, hpk, hid]
    rfl
  · unfold getPrimaryKeyField
    rw [h, hpk, hid, huuid]
    rfl
  · unfold getPrimaryKeyField
    rw [h, hpk, hid, huuid]
    rfl

/-- Claim C10, witness: a 36-character 4-hyphen string identifier on a
model whose declared primary key is a different column selects the uuid
attribute; an integer identifier on the same model selects the declared
primary key. -/
theorem c10_primary_key_field_selection_witness :
    getPrimaryKeyField ⟨"Article", ["pk_col", "uuid"], ["pk_col"]⟩
      (EntityId.strId "123e4567-e89b-12d3-a456-426614174000") =
      Except.ok "uuid" ∧
    getPrimaryKeyField ⟨"Article", ["pk_col", "uuid"], ["pk_col"]⟩
      (EntityId.intId 7) = Except.ok "pk_col" :=
  ⟨(c10_primary_key_field_selection
      ⟨"Article", ["pk_col", "uuid"], ["pk_col"]⟩
      (EntityId.strId "123e4567-e89b-12d3-a456-426614174000")).1 (by decide),
   (c10_primary_key_field_selection
      ⟨"Article", ["pk_col", "uuid"], ["pk_col"]⟩
      (EntityId.intId 7)).2.1 "pk_col" [] (by decide) rfl⟩

/-- Claim C5, counterexample: with an empty store, get on a nonexistent
identifier returns a successful empty result, not the not-found failure
the claim describes: it is update and delete that raise it. -/
theorem c5_get_returns_none_not_error :
    CRUDBase.get ⟨"Category", ["id", "name"], ["id"]⟩ []
      (EntityId.intId 999) = Except.ok none ∧
    CRUDBase.get ⟨"Category", ["id", "name"], ["id"]⟩ []
      (EntityId.intId 999) ≠
      Except.error (CrudError.notFound "Category" (EntityId.intId 999)) :=
  ⟨rfl, fun h => Except.noConfusion h⟩

/-- Claim C5, amended: for every identifier matching no stored entity,
get returns no result (None) without raising; update and delete, which
first perform a get, surface the absence as the not-found failure naming
the entity type and the identifier. -/
theorem c5_update_delete_surface_not_found (model : ModelMeta)
    (store : List EntityRow) (identifier : EntityId) (pk : String)
    (objIn : List (String × EntityId))
    (hpk : getPrimaryKeyField model identifier = Except.ok pk)
    (hmiss : ∀ r ∈ store, List.lookup pk r ≠ some identifier) :
    CRUDBase.get model store identifier = Except.ok none ∧
    CRUDBase.update model store identifier objIn =
      Except.error (CrudError.notFound model.name identifier) ∧
    CRUDBase.delete model store identifier =
      Except.error (CrudError.notFound model.name identifier) := by
  have hfilter :
      store.filter (fun r => List.lookup pk r == some identifier) = [] := by
    rw [List.filter_eq_nil_iff]
    intro r hr
    simpa using hmiss r hr
  have hget : CRUDBase.get model store identifier = Except.ok none := by
    unfold CRUDBase.get
    rw [hpk, exceptBindOk]
    unfold scalarOneOrNone
    rw [hfilter]
  refine ⟨hget, ?_, ?_⟩
  · unfold CRUDBase.update
    rw [hget, exceptBindOk]
  · unfold CRUDBase.delete
    rw [hget, exceptBindOk]

/-- Claim C5, witness at a concrete model, empty store and nonexistent
integer identifier. -/
theorem c5_update_delete_surface_not_found_witness :
    CRUDBase.get ⟨"Category", ["id", "name"], ["id"]⟩ []
      (EntityId.intId 999) = Except.ok none ∧
    CRUDBase.update ⟨"Category", ["id", "name"], ["id"]⟩ []
      (EntityId.intId 999) [] =
      Except.error (CrudError.notFound "Category" (EntityId.intId 999)) ∧
    CRUDBase.delete ⟨"Category", ["id", "name"], ["id"]⟩ []
      (EntityId.intId 999) =
      Except.error (CrudError.notFound "Category" (EntityId.intId 999)) :=
  c5_update_delete_surface_not_found ⟨"Category", ["id", "name"], ["id"]⟩ []
    (EntityId.intId 999) "id" [] rfl (by simp)

/-- A non-empty policy list is not isEmpty. -/
theorem policy_isEmpty_false {policy : List (String × AllowedFilter)}
    (hne : policy ≠ []) : policy.isEmpty = false := by
  cases policy with
  | nil => exact absurd rfl hne
  | cons a l => rfl

/-- With a non-empty policy, resolution runs the policy-mode loop over the
dual lookup maps. -/
theorem resolveAndValidate_policy (rawFilters : List RawFilterSchema)
    (policy : List (String × AllowedFilter)) (hne : policy ≠ []) :
    resolveAndValidateFilters rawFilters policy =
      resolveWithPolicy (buildAliasMap policy) (buildFieldMap policy)
        rawFilters := by
  unfold resolveAndValidateFilters
  rw [policy_isEmpty_false hne]
  rfl

/-- The policy-mode loop on a single raw filter is its loop body, with a
successful body wrapped as a singleton. -/
theorem resolveWithPolicy_singleton
    (byAlias byField : List (String × AllowedFilter))
    (raw : RawFilterSchema) :
    resolveWithPolicy byAlias byField [raw] =
      match resolveOneWithPolicy byAlias byField raw with
      | Except.error e => Except.error e
      | Except.ok fs => Except.ok [fs] := by
  cases h : resolveOneWithPolicy byAlias byField raw <;>
    simp [resolveWithPolicy, h]

/-- When neither lookup map knows the raw key, the loop body fails with
the filter-not-allowed condition carrying the key and the alias-map
keys. -/
theorem resolveOne_filter_not_allowed
    (byAlias byField : List (String × AllowedFilter))
    (raw : RawFilterSchema)
    (h1 : List.lookup raw.alias_or_field byAlias = none)
    (h2 : List.lookup raw.alias_or_field byField = none) :
    resolveOneWithPolicy byAlias byField raw =
      Except.error (FilterError.filterNotAllowed raw.alias_or_field
        (byAlias.map Prod.fst)) := by
  simp only [resolveOneWithPolicy]
  rw [h1, h2]

/-- The loop body on a matched raw filter (alias hit resolving to the
declared field, or alias miss and field hit resolving to the key itself)
continues with the operator check, value normalization and schema
construction. -/
theorem resolveOne_matched (byAlias byField : List (String × AllowedFilter))
    (raw : RawFilterSchema) (af : AllowedFilter) (actualField : String)
    (hmatch :
      (List.lookup raw.alias_or_field byAlias = some af ∧
        actualField = af.field) ∨
      (List.lookup raw.alias_or_field byAlias = none ∧
        List.lookup raw.alias_or_field byField = some af ∧
        actualField = raw.alias_or_field)) :
    resolveOneWithPolicy byAlias byField raw =
      (match
        (if optStringTruthy raw.operator then
          (if af.isOperatorAllowed (raw.operator.getD "") then
            Except.ok (raw.operator.getD "")
          else
            Except.error (FilterError.operatorNotAllowed raw.alias_or_field
              (raw.operator.getD "") af.allowed_operators))
        else Except.ok af.default_operator) with
      | Except.error e => Except.error e
      | Except.ok operatorStr =>
        match normalizeFilterValue raw.values operatorStr
            raw.operator.isSome with
        | Except.error e => Except.error e
        | Except.ok normalizedValue =>
          FilterSchema.validated actualField operatorStr normalizedValue) := by
  simp only [resolveOneWithPolicy]
  rcases hmatch with ⟨h1, h2⟩ | ⟨h1, h2, h3⟩
  · rw [h1]
    subst h2
    rfl
  · rw [h1, h2]
    subst h3
    rfl

/-- A matched raw filter carrying a truthy explicit operator that the
declaration does not allow makes the loop body fail with the
operator-not-allowed condition carrying the raw key, the rejected
operator and the permitted operators. -/
theorem resolveOne_operator_rejected
    (byAlias byField : List (String × AllowedFilter))
    (raw : RawFilterSchema) (af : AllowedFilter) (actualField : String)
    (hmatch :
      (List.lookup raw.alias_or_field byAlias = some af ∧
        actualField = af.field) ∨
      (List.lookup raw.alias_or_field byAlias = none ∧
        List.lookup raw.alias_or_field byField = some af ∧
        actualField = raw.alias_or_field))
    (op : String) (hop : raw.operator = some op) (hne : op ≠ "")
    (hnot : af.isOperatorAllowed op = false) :
    resolveOneWithPolicy byAlias byField raw =
      Except.error (FilterError.operatorNotAllowed raw.alias_or_field op
        af.allowed_operators) := by
  rw [resolveOne_matched byAlias byField raw af actualField hmatch, hop]
  simp [optStringTruthy, hne, hnot]

/-- A matched raw filter with no explicit operator and a non-empty values
list resolves successfully to a schema on the resolved field carrying the
default operator of the matched declaration. -/
theorem resolveOne_default_operator
    (byAlias byField : List (String × AllowedFilter))
    (raw : RawFilterSchema) (af : AllowedFilter) (actualField : String)
    (hmatch :
      (List.lookup raw.alias_or_field byAlias = some af ∧
        actualField = af.field) ∨
      (List.lookup raw.alias_or_field byAlias = none ∧
        List.lookup raw.alias_or_field byField = some af ∧
        actualField = raw.alias_or_field))
    (hop : raw.operator = none) (v : String) (vs : List String)
    (hvals : raw.values = v :: vs)
    (hdef : af.default_operator ∈ FilterOperator.all) :
    ∃ val, resolveOneWithPolicy byAlias byField raw =
      Except.ok ⟨actualField, af.default_operator, val⟩ := by
  rw [resolveOne_matched byAlias byField raw af actualField hmatch, hop,
    hvals]
  obtain ⟨val, hval⟩ :=
    normalizeFilterValue_ok v vs af.default_operator false
  refine ⟨val, ?_⟩
  simp [optStringTruthy, hval, validated_ok hdef]

/-- Claim C7: under a supplied policy, a raw filter matched to an
AllowedFilter and carrying an explicit operator outside that declaration
allowed set makes resolution fail with the operator-not-allowed condition
carrying the filter name, the rejected operator and the permitted
operator set; a matched raw filter with no explicit operator resolves to a
schema carrying the declaration default operator. -/
theorem c7_policy_operator_validation
    (policy : List (String × AllowedFilter)) (raw : RawFilterSchema)
    (af : AllowedFilter) (actualField : String) (hne : policy ≠ [])
    (hmatch :
      (List.lookup raw.alias_or_field (buildAliasMap policy) = some af ∧
        actualField = af.field) ∨
      (List.lookup raw.alias_or_field (buildAliasMap policy) = none ∧
        List.lookup raw.alias_or_field (buildFieldMap policy) = some af ∧
        actualField = raw.alias_or_field)) :
    (∀ op, raw.operator = some op → op ≠ "" →
      af.isOperatorAllowed op = false →
      resolveAndValidateFilters [raw] policy =
        Except.error (FilterError.operatorNotAllowed raw.alias_or_field op
          af.allowed_operators)) ∧
    (∀ v vs, raw.operator = none → raw.values = v :: vs →
      af.default_operator ∈ FilterOperator.all →
      ∃ val, resolveAndValidateFilters [raw] policy =
        Except.ok [⟨actualField, af.default_operator, val⟩]) := by
  constructor
  · intro op hop hnil hnot
    rw [resolveAndValidate_policy [raw] policy hne,
      resolveWithPolicy_singleton,
      resolveOne_operator_rejected _ _ raw af actualField hmatch op hop hnil
        hnot]
  · intro v vs hop hvals hdef
    obtain ⟨val, hval⟩ :=
      resolveOne_default_operator (buildAliasMap policy)
        (buildFieldMap policy) raw af actualField hmatch hop v vs hvals hdef
    refine ⟨val, ?_⟩
    rw [resolveAndValidate_policy [raw] policy hne,
      resolveWithPolicy_singleton, hval]

/-- Claim C7, witness: the exact preset on status allows eq, ne, in, nin,
and requesting the explicit operator gt on status raises the
operator-not-allowed condition with that permitted set. -/
theorem c7_policy_operator_validation_witness :
    AllowedFilter.exact "status" none none =
      Except.ok ⟨"status", "status", "eq", ["eq", "ne", "in", "nin"]⟩ ∧
    resolveAndValidateFilters [⟨"status", some "gt", ["active"]⟩]
      [("status", ⟨"status", "status", "eq", ["eq", "ne", "in", "nin"]⟩)] =
      Except.error (FilterError.operatorNotAllowed "status" "gt"
        ["eq", "ne", "in", "nin"]) :=
  ⟨rfl,
   (c7_policy_operator_validation
      [("status", ⟨"status", "status", "eq", ["eq", "ne", "in", "nin"]⟩)]
      ⟨"status", some "gt", ["active"]⟩
      ⟨"status", "status", "eq", ["eq", "ne", "in", "nin"]⟩
      "status" (by decide) (Or.inl ⟨rfl, rfl⟩)).1 "gt" rfl (by decide)
      (by decide)⟩

/-- Claim C8: under a supplied policy, the raw key is resolved against the
alias map first and then the field-name map: an alias hit resolves to that
declaration underlying field name (even when the field map also knows the
key), an alias miss with a field hit resolves to the key itself, and a
miss in both maps fails with the filter-not-allowed condition carrying the
offending key and the permitted keys (the alias-map keys). -/
theorem c8_alias_then_field_resolution
    (policy : List (String × AllowedFilter)) (raw : RawFilterSchema)
    (hne : policy ≠ []) :
    (∀ af v vs,
      List.lookup raw.alias_or_field (buildAliasMap policy) = some af →
      raw.operator = none → raw.values = v :: vs →
      af.default_operator ∈ FilterOperator.all →
      ∃ val, resolveAndValidateFilters [raw] policy =
        Except.ok [⟨af.field, af.default_operator, val⟩]) ∧
    (∀ af v vs,
      List.lookup raw.alias_or_field (buildAliasMap policy) = none →
      List.lookup raw.alias_or_field (buildFieldMap policy) = some af →
      raw.operator = none → raw.values = v :: vs →
      af.default_operator ∈ FilterOperator.all →
      ∃ val, resolveAndValidateFilters [raw] policy =
        Except.ok [⟨raw.alias_or_field, af.default_operator, val⟩]) ∧
    (List.lookup raw.alias_or_field (buildAliasMap policy) = none →
      List.lookup raw.alias_or_field (buildFieldMap policy) = none →
      resolveAndValidateFilters [raw] policy =
        Except.error (FilterError.filterNotAllowed raw.alias_or_field
          ((buildAliasMap policy).map Prod.fst))) := by
  refine ⟨fun af v vs h1 hop hvals hdef => ?_,
    fun af v vs h1 h2 hop hvals hdef => ?_, fun h1 h2 => ?_⟩
  · obtain ⟨val, hval⟩ :=
      resolveOne_default_operator (buildAliasMap policy)
        (buildFieldMap policy) raw af af.field (Or.inl ⟨h1, rfl⟩) hop v vs
        hvals hdef
    refine ⟨val, ?_⟩
    rw [resolveAndValidate_policy [raw] policy hne,
      resolveWithPolicy_singleton, hval]
  · obtain ⟨val, hval⟩ :=
      resolveOne_default_operator (buildAliasMap policy)
        (buildFieldMap policy) raw af raw.alias_or_field
        (Or.inr ⟨h1, h2, rfl⟩) hop v vs hvals hdef
    refine ⟨val, ?_⟩
    rw [resolveAndValidate_policy [raw] policy hne,
      resolveWithPolicy_singleton, hval]
  · rw [resolveAndValidate_policy [raw] policy hne,
      resolveWithPolicy_singleton,
      resolveOne_filter_not_allowed _ _ raw h1 h2]

/-- Claim C8, witness: with one declaration exposing alias name for field
user_name and another exposing alias n for field name, the raw key name
hits the alias map first and resolves to user_name although it is also the
second declaration field name; an unknown key fails with the permitted
alias keys. -/
theorem c8_alias_then_field_resolution_witness :
    (∃ val, resolveAndValidateFilters [⟨"name", none, ["Tech"]⟩]
      [("name", ⟨"user_name", "name", "eq", ["eq"]⟩),
       ("n", ⟨"name", "n", "eq", ["eq"]⟩)] =
      Except.ok [⟨"user_name", "eq", val⟩]) ∧
    resolveAndValidateFilters [⟨"unknown", none, ["x"]⟩]
      [("name", ⟨"user_name", "name", "eq", ["eq"]⟩),
       ("n", ⟨"name", "n", "eq", ["eq"]⟩)] =
      Except.error (FilterError.filterNotAllowed "unknown" ["name", "n"]) :=
  ⟨(c8_alias_then_field_resolution
      [("name", ⟨"user_name", "name", "eq", ["eq"]⟩),
       ("n", ⟨"name", "n", "eq", ["eq"]⟩)]
      ⟨"name", none, ["Tech"]⟩ (by decide)).1
      ⟨"user_name", "name", "eq", ["eq"]⟩ "Tech" [] rfl rfl rfl (by decide),
   (c8_alias_then_field_resolution
      [("name", ⟨"user_name", "name", "eq", ["eq"]⟩),
       ("n", ⟨"name", "n", "eq", ["eq"]⟩)]
      ⟨"unknown", none, ["x"]⟩ (by decide)).2.2 rfl rfl⟩

/-- A successful permissive-mode loop body yields a supported operator. -/
theorem resolveOneWithoutValidation_operator (raw : RawFilterSchema)
    (fs : FilterSchema)
    (h : resolveOneWithoutValidation raw = Except.ok fs) :
    fs.operator ∈ FilterOperator.all := by
  simp only [resolveOneWithoutValidation] at h
  repeat' split at h
  all_goals try cases h
  all_goals try exact validated_ok_operator h
  all_goals try dsimp only
  all_goals first | assumption | decide

/-- A successful policy-mode loop body yields a supported operator. -/
theorem resolveOneWithPolicy_operator
    (byAlias byField : List (String × AllowedFilter))
    (raw : RawFilterSchema) (fs : FilterSchema)
    (h : resolveOneWithPolicy byAlias byField raw = Except.ok fs) :
    fs.operator ∈ FilterOperator.all := by
  simp only [resolveOneWithPolicy] at h
  repeat' split at h
  all_goals try cases h
  all_goals exact validated_ok_operator h

/-- Every filter produced by the permissive-mode loop has a supported
operator. -/
theorem resolveWithoutValidation_operators :
    ∀ (raws : List RawFilterSchema) (l : List FilterSchema),
    resolveFiltersWithoutValidation raws = Except.ok l →
    ∀ fs ∈ l, fs.operator ∈ FilterOperator.all := by
  intro raws
  induction raws with
  | nil =>
    intro l h fs hfs
    simp only [resolveFiltersWithoutValidation, Except.ok.injEq] at h
    subst h
    cases hfs
  | cons raw rest ih =>
    intro l h fs hfs
    unfold resolveFiltersWithoutValidation at h
    cases h1 : resolveOneWithoutValidation raw with
    | error e => rw [h1] at h; simp at h
    | ok f1 =>
      rw [h1] at h
      cases h2 : resolveFiltersWithoutValidation rest with
      | error e => rw [h2] at h; simp at h
      | ok others =>
        rw [h2] at h
        simp only [Except.ok.injEq] at h
        subst h
        rcases List.mem_cons.mp hfs with rfl | hmem
        · exact resolveOneWithoutValidation_operator raw fs h1
        · exact ih others h2 fs hmem

/-- Every filter produced by the policy-mode loop has a supported
operator. -/
theorem resolveWithPolicy_operators
    (byAlias byField : List (String × AllowedFilter)) :
    ∀ (raws : List RawFilterSchema) (l : List FilterSchema),
    resolveWithPolicy byAlias byField raws = Except.ok l →
    ∀ fs ∈ l, fs.operator ∈ FilterOperator.all := by
  intro raws
  induction raws with
  | nil =>
    intro l h fs hfs
    simp only [resolveWithPolicy, Except.ok.injEq] at h
    subst h
    cases hfs
  | cons raw rest ih =>
    intro l h fs hfs
    unfold resolveWithPolicy at h
    cases h1 : resolveOneWithPolicy byAlias byField raw with
    | error e => rw [h1] at h; simp at h
    | ok f1 =>
      rw [h1] at h
      cases h2 : resolveWithPolicy byAlias byField rest with
      | error e => rw [h2] at h; simp at h
      | ok others =>
        rw [h2] at h
        simp only [Except.ok.injEq] at h
        subst h
        rcases List.mem_cons.mp hfs with rfl | hmem
        · exact resolveOneWithPolicy_operator byAlias byField raw fs h1
        · exact ih others h2 fs hmem

/-- A successfully built group filter has a supported operator. -/
theorem buildFilterFromGroup_operator (field operator : String)
    (values : List String) (fs : FilterSchema)
    (h : buildFilterFromGroup field operator values = Except.ok fs) :
    fs.operator ∈ FilterOperator.all := by
  simp only [buildFilterFromGroup] at h
  repeat' split at h
  all_goals try cases h
  all_goals try exact validated_ok_operator h
  all_goals try dsimp only
  all_goals first | assumption | decide

/-- Every filter produced from the accumulated groups has a supported
operator. -/
theorem buildFiltersFromGroups_operators :
    ∀ (groups : List ((String × String) × List String))
      (l : List FilterSchema),
    buildFiltersFromGroups groups = Except.ok l →
    ∀ fs ∈ l, fs.operator ∈ FilterOperator.all := by
  intro groups
  induction groups with
  | nil =>
    intro l h fs hfs
    simp only [buildFiltersFromGroups, Except.ok.injEq] at h
    subst h
    cases hfs
  | cons g rest ih =>
    intro l h fs hfs
    unfold buildFiltersFromGroups at h
    cases h1 : buildFilterFromGroup g.1.1 g.1.2 g.2 with
    | error e => rw [h1] at h; simp at h
    | ok f1 =>
      rw [h1] at h
      cases h2 : buildFiltersFromGroups rest with
      | error e => rw [h2] at h; simp at h
      | ok others =>
        rw [h2] at h
        simp only [Except.ok.injEq] at h
        subst h
        rcases List.mem_cons.mp hfs with rfl | hmem
        · exact buildFilterFromGroup_operator g.1.1 g.1.2 g.2 fs h1
        · exact ih others h2 fs hmem

/-- Claim C9: every resolved filter that exists carries an operator drawn
from the supported operator enumeration: every filter list the resolver
(in either mode) or the parser successfully produces contains only
supported operators, and constructing a resolved filter with any other
operator string fails at construction. -/
theorem c9_resolved_operators_supported :
    (∀ (raws : List RawFilterSchema)
      (policy : List (String × AllowedFilter)) (l : List FilterSchema),
      resolveAndValidateFilters raws policy = Except.ok l →
      ∀ fs ∈ l, fs.operator ∈ FilterOperator.all) ∧
    (∀ (unquoteFn : String → String) (params : List (String × List String))
      (l : List FilterSchema),
      parse_filter_params unquoteFn params = Except.ok l →
      ∀ fs ∈ l, fs.operator ∈ FilterOperator.all) ∧
    (∀ (field operator : String) (value : FilterValue),
      operator ∉ FilterOperator.all →
      FilterSchema.validated field operator value =
        Except.error
          (FilterError.valueError ("Invalid operator " ++ operator))) := by
  refine ⟨fun raws policy l h fs hfs => ?_,
    fun unquoteFn params l h fs hfs => ?_,
    fun field operator value hop => validated_bad_operator _ _ _ hop⟩
  · unfold resolveAndValidateFilters at h
    split at h
    · exact resolveWithoutValidation_operators raws l h fs hfs
    · exact resolveWithPolicy_operators _ _ raws l h fs hfs
  · exact buildFiltersFromGroups_operators _ l h fs hfs

/-- Claim C9, witness at a concrete permissive resolution, a concrete
parse, and a concrete rejected construction. -/
theorem c9_resolved_operators_supported_witness :
    "eq" ∈ FilterOperator.all ∧
    FilterSchema.validated "name" "bogus" (FilterValue.str "x") =
      Except.error (FilterError.valueError "Invalid operator bogus") :=
  ⟨c9_resolved_operators_supported.1 [⟨"name", none, ["John"]⟩] [] _ rfl
    ⟨"name", "eq", FilterValue.str "John"⟩ (by decide),
   c9_resolved_operators_supported.2.2 "name" "bogus" (FilterValue.str "x")
     (by decide)⟩

/-- When every key of the request fails the filter grammar, the group
accumulation leaves the groups unchanged. -/
theorem collectGroupsAux_skip (unquoteFn : String → String) :
    ∀ (params : List (String × List String))
      (groups : List ((String × String) × List String)),
    (∀ kv ∈ params, matchFilterKey kv.1 = none) →
    collectFilterGroupsAux unquoteFn params groups = groups := by
  intro params
  induction params with
  | nil => intro groups h; rfl
  | cons kv rest ih =>
    intro groups h
    unfold collectFilterGroupsAux
    rw [h kv (List.mem_cons_self kv rest)]
    exact ih groups (fun kv2 h2 => h kv2 (List.mem_cons_of_mem kv h2))

/-- Invariant of the accumulated groups: every group operator token is
supported and every group has at least one value. -/
def GroupsOk (groups : List ((String × String) × List String)) : Prop :=
  ∀ g ∈ groups, g.1.2 ∈ FilterOperator.all ∧ g.2 ≠ []

/-- Adding a value under a supported operator key preserves the group
invariant. -/
theorem addToGroups_ok (groups : List ((String × String) × List String))
    (key : String × String) (value : String)
    (hg : GroupsOk groups) (hk : key.2 ∈ FilterOperator.all) :
    GroupsOk (addToGroups groups key value) := by
  intro g hmem
  unfold addToGroups at hmem
  split at hmem
  · rcases List.mem_map.mp hmem with ⟨a, ha, rfl⟩
    by_cases hak : (a.1 == key) = true
    · rw [if_pos hak]
      exact ⟨(hg a ha).1, by simp⟩
    · rw [if_neg hak]
      exact hg a ha
  · rcases List.mem_append.mp hmem with h | h
    · exact hg g h
    · rcases List.mem_singleton.mp h with rfl
      exact ⟨hk, by simp⟩

/-- Folding a list of values into the groups under a supported operator
key preserves the group invariant. -/
theorem foldlAdd_ok (unquoteFn : String → String) (key : String × String)
    (hk : key.2 ∈ FilterOperator.all) :
    ∀ (values : List String)
      (groups : List ((String × String) × List String)),
    GroupsOk groups →
    GroupsOk (values.foldl
      (fun gs value => addToGroups gs key (unquoteFn value)) groups) := by
  intro values
  induction values with
  | nil => intro groups hg; exact hg
  | cons v rest ih =>
    intro groups hg
    exact ih (addToGroups groups key (unquoteFn v))
      (addToGroups_ok groups key (unquoteFn v) hg hk)

/-- When every grammar-matching key of the request carries a supported
operator token (or none), the accumulated groups satisfy the invariant. -/
theorem collectGroupsAux_ok (unquoteFn : String → String) :
    ∀ (params : List (String × List String))
      (groups : List ((String × String) × List String)),
    (∀ kv ∈ params, ∀ f o, matchFilterKey kv.1 = some (f, some o) →
      o ∈ FilterOperator.all) →
    GroupsOk groups →
    GroupsOk (collectFilterGroupsAux unquoteFn params groups) := by
  intro params
  induction params with
  | nil => intro groups h hg; exact hg
  | cons kv rest ih =>
    intro groups h hg
    simp only [collectFilterGroupsAux]
    apply ih _ (fun kv2 h2 f o hm => h kv2 (List.mem_cons_of_mem kv h2) f o hm)
    cases hm : matchFilterKey kv.1 with
    | none => exact hg
    | some rfo =>
      obtain ⟨rawField, operatorGroup⟩ := rfo
      cases operatorGroup with
      | none =>
        exact foldlAdd_ok unquoteFn
          (unquoteFn rawField, (none : Option String).getD
            FilterOperator.defaultOp)
          (show FilterOperator.defaultOp ∈ FilterOperator.all by decide)
          kv.2 groups hg
      | some o =>
        exact foldlAdd_ok unquoteFn
          (unquoteFn rawField, (some o).getD FilterOperator.defaultOp)
          (h kv (List.mem_cons_self kv rest) rawField o hm) kv.2 groups hg

/-- Building one filter from a non-empty group under a supported operator
token never raises. -/
theorem buildFilterFromGroup_total (field op v : String) (vs : List String)
    (hop : op ∈ FilterOperator.all) :
    ∃ fs, buildFilterFromGroup field op (v :: vs) = Except.ok fs := by
  have hval : ∀ (o : String) (val : FilterValue), o ∈ FilterOperator.all →
      ∃ fs, FilterSchema.validated field o val = Except.ok fs :=
    fun o val ho => ⟨⟨field, o, val⟩, validated_ok ho⟩
  simp only [buildFilterFromGroup]
  generalize hO : (if ((!vs.isEmpty) && op == FilterOperator.defaultOp) = true
    then "in" else op) = op2
  have hop2 : op2 ∈ FilterOperator.all := by
    split at hO
    · rw [← hO]; decide
    · rw [← hO]; exact hop
  by_cases h1 : (op2 == "is_null" || op2 == "is_not_null") = true
  · rw [if_pos h1]
    exact hval _ _ hop2
  · rw [if_neg h1]
    by_cases h2 : (op2 == "in") = true
    · rw [if_pos h2]
      by_cases h3 : (!vs.isEmpty) = true
      · rw [if_pos h3]
        exact hval _ _ hop2
      · rw [if_neg h3]
        exact hval _ _ hop2
    · rw [if_neg h2]
      exact hval _ _ hop2

/-- Building the filters from groups satisfying the invariant never
raises. -/
theorem buildFiltersFromGroups_total :
    ∀ (groups : List ((String × String) × List String)), GroupsOk groups →
    ∃ l, buildFiltersFromGroups groups = Except.ok l := by
  intro groups
  induction groups with
  | nil => intro hg; exact ⟨[], rfl⟩
  | cons g rest ih =>
    intro hg
    obtain ⟨hop, hne⟩ := hg g (List.mem_cons_self g rest)
    obtain ⟨l, hl⟩ := ih (fun g2 h2 => hg g2 (List.mem_cons_of_mem g h2))
    cases hv : g.2 with
    | nil => exact absurd hv hne
    | cons v vs =>
      obtain ⟨fs, hfs⟩ := buildFilterFromGroup_total g.1.1 g.1.2 v vs hop
      refine ⟨fs :: l, ?_⟩
      unfold buildFiltersFromGroups
      rw [hv, hfs, hl]

/-- Claim C3, counterexample: a key that matches the filter grammar but
carries an unsupported bracketed operator token makes parsing raise the
operator validation error of the schema constructor, so parsing is not
raise-free on grammar-matching keys. -/
theorem c3_unsupported_operator_token_raises :
    parse_filter_params (fun s => s) [("filter[name][bogus]", ["x"])] =
      Except.error (FilterError.valueError "Invalid operator bogus") := rfl

/-- Claim C3, amended: keys that do not match the filter grammar produce
no output entries and are inert (an all-inert request parses to the empty
list, raising nothing), and a request whose grammar-matching keys carry
only supported operator tokens (or no operator token) parses without
raising; but a grammar-matching key with an unsupported operator token
raises a validation error. -/
theorem c3_nonmatching_inert_supported_ok (unquoteFn : String → String)
    (params : List (String × List String)) :
    ((∀ kv ∈ params, matchFilterKey kv.1 = none) →
      parse_filter_params unquoteFn params = Except.ok []) ∧
    ((∀ kv ∈ params, ∀ f o, matchFilterKey kv.1 = some (f, some o) →
        o ∈ FilterOperator.all) →
      ∃ l, parse_filter_params unquoteFn params = Except.ok l) := by
  constructor
  · intro h
    unfold parse_filter_params collectFilterGroups
    rw [collectGroupsAux_skip unquoteFn params [] h]
    rfl
  · intro h
    unfold parse_filter_params collectFilterGroups
    exact buildFiltersFromGroups_total _
      (collectGroupsAux_ok unquoteFn params [] h
        (fun g hg => absurd hg (List.not_mem_nil g)))

/-- Claim C3, witness: a request of only non-filter keys parses to the
empty list, and a request with a supported bracketed operator parses
successfully. -/
theorem c3_nonmatching_inert_supported_ok_witness :
    parse_filter_params (fun s => s)
      [("sort", ["-created_at"]), ("page", ["2"])] = Except.ok [] ∧
    ∃ l, parse_filter_params (fun s => s) [("filter[age][gt]", ["18"])] =
      Except.ok l :=
  ⟨(c3_nonmatching_inert_supported_ok (fun s => s)
      [("sort", ["-created_at"]), ("page", ["2"])]).1 (by decide),
   (c3_nonmatching_inert_supported_ok (fun s => s)
      [("filter[age][gt]", ["18"])]).2 (by
      intro kv hkv f o hm
      simp only [List.mem_singleton] at hkv
      subst hkv
      rw [show matchFilterKey "filter[age][gt]" = some ("age", some "gt")
        from rfl] at hm
      simp only [Option.some.injEq, Prod.mk.injEq] at hm
      obtain ⟨h1, h2⟩ := hm
      rw [← h2]
      decide)⟩
